import Mathlib

/-!
Verification of the provider streaming and usage-accounting core of the
repository.  JavaScript numbers are embedded as rationals (`ℚ`), optional
fields as `Option`, and fallible calls as `Except`.  Each definition is a
direct translation of the corresponding TypeScript source.
-/

/-- Truthiness of an optional JS number: `undefined`, and a present `0`,
are both falsy (`!x` in JS is true for `undefined` and for `0`). -/
def jsTruthy : Option ℚ → Bool
  | none => false
  | some q => decide (q ≠ 0)

/-- A pricing tier, from the `tiers` entries of `ModelInfo`
(src/src/utils/calculateCostGenai.ts uses `contextWindow`, `inputPrice`,
`outputPrice`, `cacheReadsPrice`). -/
structure PriceTier where
  contextWindow : ℚ
  inputPrice : Option ℚ
  outputPrice : Option ℚ
  cacheReadsPrice : Option ℚ
deriving DecidableEq

/-- The fields of `ModelInfo` read by `calculateCostGenai`. -/
structure ModelInfo where
  inputPrice : Option ℚ
  outputPrice : Option ℚ
  cacheReadsPrice : Option ℚ
  tiers : Option (List PriceTier)
deriving DecidableEq

/-- The tier adjustment step of `calculateCostGenai`
(src/src/utils/calculateCostGenai.ts lines 29-37): `info.tiers.find(...)`
with `??` fallback of each tier field to the base price. -/
def tierAdjust (inputTokens : ℚ) (tiers : Option (List PriceTier)) (ip op cp : ℚ) :
    ℚ × ℚ × ℚ :=
  match tiers with
  | none => (ip, op, cp)
  | some ts =>
    match ts.find? (fun t => decide (inputTokens ≤ t.contextWindow)) with
    | none => (ip, op, cp)
    | some t => (t.inputPrice.getD ip, t.outputPrice.getD op, t.cacheReadsPrice.getD cp)

/-- Embedding of `calculateCostGenai` (src/src/utils/calculateCostGenai.ts).
The guard `!info.inputPrice || !info.outputPrice || !info.cacheReadsPrice`
returns `undefined` (here `none`); otherwise the guard guarantees the three
base prices are present, which `getD 0` unwraps.  The JS default parameter
`cacheReadTokens = 0` is applied by the callers of this embedding. -/
def calculateCostGenai (info : ModelInfo) (inputTokens outputTokens cacheReadTokens : ℚ) :
    Option ℚ :=
  if !jsTruthy info.inputPrice || !jsTruthy info.outputPrice || !jsTruthy info.cacheReadsPrice then
    none
  else
    let prices := tierAdjust inputTokens info.tiers (info.inputPrice.getD 0)
      (info.outputPrice.getD 0) (info.cacheReadsPrice.getD 0)
    let inputPrice := prices.1
    let outputPrice := prices.2.1
    let cacheReadsPrice := prices.2.2
    let uncachedInputTokens := inputTokens - cacheReadTokens
    let cacheReadCost := if cacheReadTokens > 0 then cacheReadsPrice * (cacheReadTokens / 1000000) else 0
    let inputTokensCost := inputPrice * (uncachedInputTokens / 1000000)
    let outputTokensCost := outputPrice * (outputTokens / 1000000)
    some (inputTokensCost + outputTokensCost + cacheReadCost)

/-- The cost expression computed by the non-`undefined` branch of
`calculateCostGenai`, for a given effective price triple. -/
def jsCost (inputPrice outputPrice cacheReadsPrice i o c : ℚ) : ℚ :=
  inputPrice * ((i - c) / 1000000) + outputPrice * (o / 1000000) +
    (if c > 0 then cacheReadsPrice * (c / 1000000) else 0)

/-- The first tier, in list order, whose context window bound admits the
input-token count (the spec's description of tier selection). -/
def firstTier (i : ℚ) : List PriceTier → Option PriceTier
  | [] => none
  | t :: ts => if i ≤ t.contextWindow then some t else firstTier i ts

lemma jsTruthy_eq_false_iff (p : Option ℚ) :
    jsTruthy p = false ↔ (p = none ∨ p = some 0) := by
  cases p with
  | none => simp [jsTruthy]
  | some q => simp [jsTruthy]

lemma jsTruthy_some_ne (q : ℚ) (h : q ≠ 0) : jsTruthy (some q) = true := by
  simp [jsTruthy, h]

lemma calculateCostGenai_eq_jsCost (info : ModelInfo) (i o c : ℚ)
    (h1 : jsTruthy info.inputPrice = true) (h2 : jsTruthy info.outputPrice = true)
    (h3 : jsTruthy info.cacheReadsPrice = true) :
    calculateCostGenai info i o c =
      some (jsCost
        (tierAdjust i info.tiers (info.inputPrice.getD 0) (info.outputPrice.getD 0)
          (info.cacheReadsPrice.getD 0)).1
        (tierAdjust i info.tiers (info.inputPrice.getD 0) (info.outputPrice.getD 0)
          (info.cacheReadsPrice.getD 0)).2.1
        (tierAdjust i info.tiers (info.inputPrice.getD 0) (info.outputPrice.getD 0)
          (info.cacheReadsPrice.getD 0)).2.2 i o c) := by
  rw [calculateCostGenai, if_neg]
  · rfl
  · simp [h1, h2, h3]

lemma find?_eq_firstTier (i : ℚ) (l : List PriceTier) :
    l.find? (fun t => decide (i ≤ t.contextWindow)) = firstTier i l := by
  induction l with
  | nil => rfl
  | cons t ts ih =>
    by_cases h : i ≤ t.contextWindow
    · simp [List.find?, firstTier, h]
    · simp [List.find?, firstTier, h, ih]

/-- Claim C1 counterexample: a model whose three prices are all *present*
but with `inputPrice = 0` still makes `calculateCostGenai` return
`undefined`, because the JS guard tests truthiness, not presence. -/
theorem calculateCostGenai_zero_price_cex :
    ((⟨some 0, some 1, some 1, none⟩ : ModelInfo).inputPrice.isSome = true ∧
     (⟨some 0, some 1, some 1, none⟩ : ModelInfo).outputPrice.isSome = true ∧
     (⟨some 0, some 1, some 1, none⟩ : ModelInfo).cacheReadsPrice.isSome = true) ∧
    calculateCostGenai ⟨some 0, some 1, some 1, none⟩ 5 5 0 = none := by
  decide

/-- Claim C1 (amended): `calculateCostGenai` returns `undefined` if and only
if at least one of `inputPrice`, `outputPrice`, `cacheReadsPrice` is absent
*or zero* on the model's base info; whenever all three are present and
nonzero it returns a numeric cost, regardless of the token counts. -/
theorem calculateCostGenai_undefined_iff (info : ModelInfo) (i o c : ℚ) :
    calculateCostGenai info i o c = none ↔
      (info.inputPrice = none ∨ info.inputPrice = some 0 ∨
       info.outputPrice = none ∨ info.outputPrice = some 0 ∨
       info.cacheReadsPrice = none ∨ info.cacheReadsPrice = some 0) := by
  obtain ⟨ip, op, cp, tiers⟩ := info
  have key : ∀ p : Option ℚ, (!jsTruthy p) = true ↔ (p = none ∨ p = some 0) := by
    intro p
    cases p with
    | none => simp [jsTruthy]
    | some q => by_cases hq : q = 0 <;> simp [jsTruthy, hq]
  by_cases hguard : (!jsTruthy ip || !jsTruthy op || !jsTruthy cp) = true
  · rw [calculateCostGenai, if_pos hguard]
    simp only [Bool.or_eq_true] at hguard
    constructor
    · intro _
      rcases hguard with (h | h) | h
      · rcases (key ip).mp h with h' | h' <;> simp [h']
      · rcases (key op).mp h with h' | h' <;> simp [h']
      · rcases (key cp).mp h with h' | h' <;> simp [h']
    · intro _; rfl
  · rw [calculateCostGenai, if_neg hguard]
    simp only [Bool.or_eq_true, not_or] at hguard
    obtain ⟨⟨h1, h2⟩, h3⟩ := hguard
    constructor
    · intro hsome; exact absurd hsome (by simp)
    · intro hcases
      exfalso
      rcases hcases with h' | h' | h' | h' | h' | h'
      · exact h1 ((key ip).mpr (Or.inl h'))
      · exact h1 ((key ip).mpr (Or.inr h'))
      · exact h2 ((key op).mpr (Or.inl h'))
      · exact h2 ((key op).mpr (Or.inr h'))
      · exact h3 ((key cp).mpr (Or.inl h'))
      · exact h3 ((key cp).mpr (Or.inr h'))

/-- Claim C3: when the model has tiers, the effective prices come from the
first tier in list order whose `contextWindow` is at least `inputTokens`;
if no tier matches or there are no tiers, the base prices are used; and a
price field the matching tier does not define falls back to the base value
for that field, not to zero. -/
theorem calculateCostGenai_tier_selection (ts : List PriceTier) (ip op cp i o c : ℚ)
    (hip : ip ≠ 0) (hop : op ≠ 0) (hcp : cp ≠ 0) :
    (calculateCostGenai ⟨some ip, some op, some cp, some ts⟩ i o c =
      some (match firstTier i ts with
            | some t => jsCost (t.inputPrice.getD ip) (t.outputPrice.getD op)
                (t.cacheReadsPrice.getD cp) i o c
            | none => jsCost ip op cp i o c)) ∧
    calculateCostGenai ⟨some ip, some op, some cp, none⟩ i o c =
      some (jsCost ip op cp i o c) := by
  have hta : tierAdjust i (some ts) ip op cp =
      (match firstTier i ts with
       | none => (ip, op, cp)
       | some t => (t.inputPrice.getD ip, t.outputPrice.getD op, t.cacheReadsPrice.getD cp)) := by
    simp only [tierAdjust, find?_eq_firstTier]
  constructor
  · rw [calculateCostGenai_eq_jsCost _ i o c (jsTruthy_some_ne ip hip)
      (jsTruthy_some_ne op hop) (jsTruthy_some_ne cp hcp)]
    cases heq : firstTier i ts with
    | none => simp only [Option.getD_some]; rw [hta, heq]
    | some t => simp only [Option.getD_some]; rw [hta, heq]
  · rw [calculateCostGenai_eq_jsCost _ i o c (jsTruthy_some_ne ip hip)
      (jsTruthy_some_ne op hop) (jsTruthy_some_ne cp hcp)]
    rfl

/-- Claim C3 witness: with the two-tier table from the repository's own
test, input 30000 selects the first tier and the cost is 0.018. -/
theorem calculateCostGenai_tier_selection_witness :
    calculateCostGenai ⟨some (1/8), some (3/8), some (1/32),
        some [⟨50000, some (1/5), some (3/5), some (1/20)⟩,
              ⟨1000000, some (1/8), some (3/8), some (1/32)⟩]⟩ 30000 20000 0 =
      some (9/500) := by
  have h := (calculateCostGenai_tier_selection
    [⟨50000, some (1/5), some (3/5), some (1/20)⟩,
     ⟨1000000, some (1/8), some (3/8), some (1/32)⟩]
    (1/8) (3/8) (1/32) 30000 20000 0 (by norm_num) (by norm_num) (by norm_num)).1
  rw [h]
  norm_num [firstTier, jsCost]

/-- Claim C5: with complete (present and nonzero) pricing and a
non-negative cache-read count, `calculateCostGenai` returns exactly
`(i - c)/1e6 * ip + o/1e6 * op + c/1e6 * cp`; with `c = 0` this is
`i/1e6 * ip + o/1e6 * op`; and with all tokens zero it is the number 0,
not `undefined`. -/
theorem calculateCostGenai_formula (ip op cp i o c : ℚ)
    (hip : ip ≠ 0) (hop : op ≠ 0) (hcp : cp ≠ 0) (hc : 0 ≤ c) :
    calculateCostGenai ⟨some ip, some op, some cp, none⟩ i o c =
        some (ip * ((i - c) / 1000000) + op * (o / 1000000) + cp * (c / 1000000)) ∧
    (c = 0 → calculateCostGenai ⟨some ip, some op, some cp, none⟩ i o c =
        some (ip * (i / 1000000) + op * (o / 1000000))) ∧
    (i = 0 → o = 0 → c = 0 →
      calculateCostGenai ⟨some ip, some op, some cp, none⟩ i o c = some 0) := by
  have base : calculateCostGenai ⟨some ip, some op, some cp, none⟩ i o c =
      some (jsCost ip op cp i o c) := by
    rw [calculateCostGenai_eq_jsCost _ i o c (jsTruthy_some_ne ip hip)
      (jsTruthy_some_ne op hop) (jsTruthy_some_ne cp hcp)]
    rfl
  have hjs : jsCost ip op cp i o c =
      ip * ((i - c) / 1000000) + op * (o / 1000000) + cp * (c / 1000000) := by
    unfold jsCost
    rcases lt_or_eq_of_le hc with h | h
    · rw [if_pos h]
    · rw [if_neg (by rw [← h]; exact lt_irrefl 0), ← h]; ring
  refine ⟨by rw [base, hjs], ?_, ?_⟩
  · intro h0; rw [base, hjs, h0]; congr 1; ring
  · intro h1 h2 h3; rw [base, hjs, h1, h2, h3]; congr 1; ring

/-- Claim C5 witness: the pricing of the repository's own unit test,
10000 input and 20000 output tokens at 0.125 and 0.375 per million. -/
theorem calculateCostGenai_formula_witness :
    calculateCostGenai ⟨some (1/8), some (3/8), some (1/32), none⟩ 10000 20000 0 =
      some (7/800) := by
  have h := (calculateCostGenai_formula (1/8) (3/8) (1/32) 10000 20000 0
    (by norm_num) (by norm_num) (by norm_num) (by norm_num)).1
  exact h.trans (by norm_num)

/-- Claim C8: with complete pricing, when `cacheReadTokens` exceeds
`inputTokens` the uncached count `inputTokens - cacheReadTokens` is used
as-is (negative, not clamped, not rejected), so the returned cost contains
a negative input component. -/
theorem calculateCostGenai_negative_uncached (ip op cp i o c : ℚ)
    (hip : 0 < ip) (hop : op ≠ 0) (hcp : cp ≠ 0) (hi : 0 ≤ i) (hic : i < c) :
    calculateCostGenai ⟨some ip, some op, some cp, none⟩ i o c =
        some (ip * ((i - c) / 1000000) + op * (o / 1000000) + cp * (c / 1000000)) ∧
    ip * ((i - c) / 1000000) < 0 := by
  have hc : 0 ≤ c := le_of_lt (lt_of_le_of_lt hi hic)
  refine ⟨(calculateCostGenai_formula ip op cp i o c (ne_of_gt hip) hop hcp hc).1, ?_⟩
  apply mul_neg_of_pos_of_neg hip
  apply div_neg_of_neg_of_pos
  · linarith
  · norm_num

/-- Claim C8 witness: 2000 cache-read tokens against 1000 input tokens at
unit prices yield cost 1/1000 with a negative input component. -/
theorem calculateCostGenai_negative_uncached_witness :
    calculateCostGenai ⟨some 1, some 1, some 1, none⟩ 1000 0 2000 = some (1/1000) ∧
    (1 : ℚ) * ((1000 - 2000) / 1000000) < 0 := by
  have h := calculateCostGenai_negative_uncached 1 1 1 1000 0 2000
    (by norm_num) (by norm_num) (by norm_num) (by norm_num) (by norm_num)
  exact ⟨h.1.trans (by norm_num), h.2⟩

/-- The usage-metadata fields read by `VertexHandler.createMessage`
(`promptTokenCount`, `candidatesTokenCount`, `cachedContentTokenCount`,
`thoughtsTokenCount`, each possibly absent on the wire). -/
structure UsageMetadata where
  promptTokenCount : Option ℚ
  candidatesTokenCount : Option ℚ
  cachedContentTokenCount : Option ℚ
  thoughtsTokenCount : Option ℚ
deriving DecidableEq

/-- One chunk of the backend-native stream consumed by
`VertexHandler.createMessage`: optional text and optional usage metadata. -/
structure GenaiChunk where
  text : Option String
  usageMetadata : Option UsageMetadata
deriving DecidableEq

/-- The uniform stream events yielded by `createMessage`. -/
inductive ApiStreamChunk where
  | text (content : String)
  | usage (inputTokens outputTokens : ℚ) (cacheReadTokens reasoningTokens : Option ℚ)
      (totalCost : Option ℚ)
deriving DecidableEq

/-- Events yielded for one native chunk inside the loop of
`createMessage`: `if (chunk.text) yield {type:"text", ...}` — a JS truthy
test, so the empty string yields nothing. -/
def chunkTextEvents (ch : GenaiChunk) : List ApiStreamChunk :=
  match ch.text with
  | some s => if s = "" then [] else [ApiStreamChunk.text s]
  | none => []

/-- The terminal usage event built after the native stream is exhausted
(`VertexHandler.createMessage`): `promptTokenCount ?? 0`,
`candidatesTokenCount ?? 0`, the optional cache/reasoning counts as-is, and
`totalCost` from `calculateCostGenai` (whose `cacheReadTokens` parameter
defaults to 0 when `cachedContentTokenCount` is absent). -/
def usageEvent (info : ModelInfo) (md : UsageMetadata) : ApiStreamChunk :=
  ApiStreamChunk.usage (md.promptTokenCount.getD 0) (md.candidatesTokenCount.getD 0)
    md.cachedContentTokenCount md.thoughtsTokenCount
    (calculateCostGenai info (md.promptTokenCount.getD 0) (md.candidatesTokenCount.getD 0)
      (md.cachedContentTokenCount.getD 0))

/-- The `for await` loop of `createMessage`: emits text events in arrival
order and overwrites `lastUsageMetadata` whenever a chunk carries usage
metadata (full replacement, last write wins). -/
def streamLoop : List GenaiChunk → Option UsageMetadata →
    List ApiStreamChunk × Option UsageMetadata
  | [], last => ([], last)
  | ch :: rest, last =>
    let next := match ch.usageMetadata with
      | some m => some m
      | none => last
    let r := streamLoop rest next
    (chunkTextEvents ch ++ r.1, r.2)

/-- Embedding of `VertexHandler.createMessage` over an already-received
native stream: run the loop, then, only if some usage metadata was ever
recorded, append the single terminal usage event. -/
def createMessage (info : ModelInfo) (chunks : List GenaiChunk) : List ApiStreamChunk :=
  let r := streamLoop chunks none
  match r.2 with
  | none => r.1
  | some md => r.1 ++ [usageEvent info md]

/-- The text events of the whole stream, chunk by chunk in order. -/
def textEvents : List GenaiChunk → List ApiStreamChunk
  | [] => []
  | ch :: rest => chunkTextEvents ch ++ textEvents rest

/-- The running last-write-wins usage snapshot. -/
def lastUsageFrom (last : Option UsageMetadata) : List GenaiChunk → Option UsageMetadata
  | [] => last
  | ch :: rest =>
    lastUsageFrom (match ch.usageMetadata with | some m => some m | none => last) rest

/-- Recognizer for usage events. -/
def isUsageEvent : ApiStreamChunk → Bool
  | ApiStreamChunk.usage _ _ _ _ _ => true
  | _ => false

lemma streamLoop_eq (chunks : List GenaiChunk) : ∀ last : Option UsageMetadata,
    streamLoop chunks last = (textEvents chunks, lastUsageFrom last chunks) := by
  induction chunks with
  | nil => intro last; rfl
  | cons ch rest ih =>
    intro last
    simp only [streamLoop, textEvents, lastUsageFrom, ih]

lemma lastUsageFrom_eq_getLast? (chunks : List GenaiChunk) : ∀ last : Option UsageMetadata,
    lastUsageFrom last chunks =
      ((chunks.filterMap fun ch => ch.usageMetadata).getLast?).elim last some := by
  induction chunks with
  | nil => intro last; rfl
  | cons ch rest ih =>
    intro last
    cases hm : ch.usageMetadata with
    | none => simp [lastUsageFrom, List.filterMap_cons, hm, ih]
    | some m =>
      simp only [lastUsageFrom, List.filterMap_cons, hm, ih]
      cases hl : (rest.filterMap fun ch => ch.usageMetadata) with
      | nil => simp
      | cons b l =>
        simp only [List.getLast?_cons_cons]
        obtain ⟨x, hx⟩ := Option.isSome_iff_exists.mp
          (List.getLast?_isSome.mpr (List.cons_ne_nil b l))
        rw [hx]
        rfl

lemma textEvents_no_usage (chunks : List GenaiChunk) :
    (textEvents chunks).countP isUsageEvent = 0 := by
  induction chunks with
  | nil => rfl
  | cons ch rest ih =>
    simp only [textEvents, List.countP_append, ih, Nat.add_zero]
    unfold chunkTextEvents
    cases ht : ch.text with
    | none => rfl
    | some s =>
      by_cases hs : s = ""
      · simp [hs]
      · simp [hs, isUsageEvent, List.countP_cons]

/-- Claim C2: for every native stream, `createMessage` yields the text
events in order followed by at most one terminal usage event; the terminal
event exists iff at least one usage fragment was received, its fields come
from the last usage fragment alone (full replacement, not a merge or sum),
and it carries `totalCost` from `calculateCostGenai` (which is `none`, not
zero, when pricing is incomplete, by `usageEvent`). -/
theorem createMessage_usage_contract (info : ModelInfo) (chunks : List GenaiChunk) :
    createMessage info chunks =
      textEvents chunks ++
        ((chunks.filterMap fun ch => ch.usageMetadata).getLast?).elim []
          (fun md => [usageEvent info md]) ∧
    (textEvents chunks).countP isUsageEvent = 0 ∧
    (createMessage info chunks).countP isUsageEvent =
      (if chunks.any (fun ch => ch.usageMetadata.isSome) then 1 else 0) := by
  have h1 : createMessage info chunks =
      textEvents chunks ++
        ((chunks.filterMap fun ch => ch.usageMetadata).getLast?).elim []
          (fun md => [usageEvent info md]) := by
    simp only [createMessage, streamLoop_eq, lastUsageFrom_eq_getLast?]
    cases hl : (chunks.filterMap fun ch => ch.usageMetadata).getLast? with
    | none => simp
    | some md => simp
  refine ⟨h1, textEvents_no_usage chunks, ?_⟩
  rw [h1, List.countP_append, textEvents_no_usage chunks, Nat.zero_add]
  by_cases hany : chunks.any (fun ch => ch.usageMetadata.isSome) = true
  · rw [if_pos hany]
    have hne : (chunks.filterMap fun ch => ch.usageMetadata) ≠ [] := by
      simp only [List.any_eq_true] at hany
      obtain ⟨ch, hch, hsome⟩ := hany
      intro hnil
      rw [List.filterMap_eq_nil_iff] at hnil
      have hnone := hnil ch hch
      rw [hnone] at hsome
      simp at hsome
    obtain ⟨md, hmd⟩ := Option.isSome_iff_exists.mp (List.getLast?_isSome.mpr hne)
    rw [hmd]
    simp [usageEvent, isUsageEvent, List.countP_cons]
  · rw [if_neg hany]
    have hnil : (chunks.filterMap fun ch => ch.usageMetadata) = [] := by
      rw [List.filterMap_eq_nil_iff]
      intro a ha
      cases hopt : a.usageMetadata with
      | none => rfl
      | some m =>
        exfalso
        apply hany
        rw [List.any_eq_true]
        exact ⟨a, ha, by simp [hopt]⟩
    rw [hnil]
    rfl

/-- Removal of the first occurrence of `pat` in a character list, as JS
`String.prototype.replace` with a string pattern and empty replacement. -/
def replaceFirstChars (pat : List Char) : List Char → List Char
  | [] => []
  | ch :: rest =>
    if pat.isPrefixOf (ch :: rest) then (ch :: rest).drop pat.length
    else ch :: replaceFirstChars pat rest

/-- JS `id.replace(":thinking", "")`: removes only the first occurrence. -/
def jsReplaceFirst (s pat : String) : String :=
  String.mk (replaceFirstChars pat.data s.data)

/-- JS `String.prototype.endsWith`. -/
def jsEndsWith (s pat : String) : Bool :=
  pat.data.isSuffixOf s.data

/-- Embedding of `VertexHandler.getModel` (restricted to the resolved id),
parameterized by the backend's model table (the key set of `vertexModels`)
and its default id (`vertexDefaultModelId`).  The source is
`let id = modelId && modelId in vertexModels ? modelId : vertexDefaultModelId`
followed by
`id.endsWith(":thinking") ? id.replace(":thinking", "") : id` — note the
table lookup uses the identifier as given, suffix included; the suffix is
stripped only from the returned id. -/
def getModelVertex (table : List String) (defaultId : String) (apiModelId : Option String) :
    String :=
  let id := match apiModelId with
    | none => defaultId
    | some m => if m ≠ "" ∧ m ∈ table then m else defaultId
  if jsEndsWith id ":thinking" then jsReplaceFirst id ":thinking" else id

/-- Claim C4 counterexample (the scenario of the repository's own vertex
test): the table holds `gemini-2.0-flash-thinking-exp-01-21` but not its
`:thinking`-suffixed form, and `getModel` on the suffixed identifier falls
back to the default id instead of resolving to the unsuffixed id. -/
theorem getModelVertex_thinking_lookup_cex :
    ("gemini-2.0-flash-thinking-exp-01-21" ∈
      ["gemini-2.0-flash-thinking-exp-01-21", "gemini-2.0-flash-001"]) ∧
    getModelVertex ["gemini-2.0-flash-thinking-exp-01-21", "gemini-2.0-flash-001"]
        "claude-sonnet-4@20250514" (some "gemini-2.0-flash-thinking-exp-01-21:thinking") =
      "claude-sonnet-4@20250514" ∧
    ("claude-sonnet-4@20250514" : String) ≠ "gemini-2.0-flash-thinking-exp-01-21" := by
  refine ⟨by decide, ?_, by decide⟩
  decide

/-- Claim C4 (amended): `getModel` never fails — a `undefined` or unknown
identifier resolves to the backend default; but the table lookup uses the
identifier as given, suffix included, and the `:thinking` suffix is
stripped only from the *returned* id after the lookup: a suffixed
identifier resolves to its unsuffixed form only when the suffixed
identifier is itself a table key, and a suffixed identifier absent from
the table resolves to the backend default even when its unsuffixed form is
a table key. -/
theorem getModelVertex_resolution (table : List String) (defaultId m : String)
    (hd : jsEndsWith defaultId ":thinking" = false) :
    getModelVertex table defaultId none = defaultId ∧
    (m ∉ table → getModelVertex table defaultId (some m) = defaultId) ∧
    (m ≠ "" → m ∈ table →
      getModelVertex table defaultId (some m) =
        (if jsEndsWith m ":thinking" = true then jsReplaceFirst m ":thinking" else m)) := by
  refine ⟨?_, ?_, ?_⟩
  · simp [getModelVertex, hd]
  · intro hm
    simp [getModelVertex, hm, hd]
  · intro hne hm
    simp [getModelVertex, hne, hm]

/-- Claim C4 witness: an identifier missing from the table resolves to the
backend default id. -/
theorem getModelVertex_resolution_witness :
    getModelVertex ["gemini-2.0-flash-001"] "claude-sonnet-4@20250514"
      (some "unknown-model") = "claude-sonnet-4@20250514" :=
  (getModelVertex_resolution ["gemini-2.0-flash-001"] "claude-sonnet-4@20250514"
    "unknown-model" (by decide)).2.1 (by decide)

/-- A content block of the Anthropic message shape; the default token
counter only inspects the array length, so one field suffices. -/
structure ContentBlock where
  text : String
deriving DecidableEq

/-- Embedding of the default `BaseProvider.countTokens`
(src/src/api/providers/base-provider.ts lines 30-36): returns 0 for an
empty content array without calling the tokenizer, otherwise delegates to
the tiktoken-based `countTokens` utility.  The second component counts how
many times the tokenizer was invoked. -/
def defaultCountTokens (tokenizer : List ContentBlock → ℕ) (content : List ContentBlock) :
    ℕ × ℕ :=
  if content.length = 0 then (0, 0) else (tokenizer content, 1)

/-- Claim C10: the default `countTokens` returns 0 for an empty content
array and never invokes the tokenizer on it. -/
theorem defaultCountTokens_empty (tokenizer : List ContentBlock → ℕ) :
    defaultCountTokens tokenizer [] = (0, 0) :=
  rfl

/-- Outcome of the native `client.models.countTokens` call as observed by
`VertexHandler.countTokens`: either a response whose `totalTokens` may be
absent, or a raised error. -/
inductive NativeCountResult where
  | success (totalTokens : Option ℕ)
  | failure (message : String)
deriving DecidableEq

/-- Embedding of the overridden `VertexHandler.countTokens`: a defined
`totalTokens` is returned directly; an `undefined` total or any raised
error falls back to `super.countTokens(content)` — the default estimator
on the unchanged content.  The return type is a plain count: no error or
partial result can be surfaced. -/
def countTokensVertex (defaultCount : List ContentBlock → ℕ)
    (native : NativeCountResult) (content : List ContentBlock) : ℕ :=
  match native with
  | NativeCountResult.success (some n) => n
  | NativeCountResult.success none => defaultCount content
  | NativeCountResult.failure _ => defaultCount content

/-- Claim C6: whenever the native count call returns an `undefined` total
or raises any error, the overridden `countTokens` returns exactly the
default local estimator applied to the same, unchanged content. -/
theorem countTokensVertex_fallback (defaultCount : List ContentBlock → ℕ)
    (content : List ContentBlock) (msg : String) :
    countTokensVertex defaultCount (NativeCountResult.success none) content =
      defaultCount content ∧
    countTokensVertex defaultCount (NativeCountResult.failure msg) content =
      defaultCount content :=
  ⟨rfl, rfl⟩

/-- A JS thrown value: an `Error` instance carrying a message, or any other
thrown value (JS allows throwing non-`Error` values). -/
inductive JsThrown where
  | errorObj (message : String)
  | rawValue (value : String)
deriving DecidableEq

/-- Embedding of `VertexHandler.completePrompt`'s result handling: on
success the text is `result.text ?? ""`; in the catch block, an
`error instanceof Error` is re-thrown as
`new Error("Vertex completion error: " + error.message)`, while any other
thrown value is re-thrown unchanged (`throw error`). -/
def completePromptVertex (backendResult : Except JsThrown (Option String)) :
    Except JsThrown String :=
  match backendResult with
  | Except.ok text => Except.ok (text.getD "")
  | Except.error (JsThrown.errorObj msg) =>
      Except.error (JsThrown.errorObj ("Vertex completion error: " ++ msg))
  | Except.error (JsThrown.rawValue v) => Except.error (JsThrown.rawValue v)

/-- Claim C7 counterexample: a thrown non-`Error` value is re-raised raw,
not wrapped into a backend-qualified error message. -/
theorem completePromptVertex_raw_cex :
    completePromptVertex (Except.error (JsThrown.rawValue "transport failure")) =
      Except.error (JsThrown.rawValue "transport failure") ∧
    ¬∃ msg, completePromptVertex (Except.error (JsThrown.rawValue "transport failure")) =
      Except.error (JsThrown.errorObj msg) := by
  refine ⟨rfl, ?_⟩
  rintro ⟨msg, h⟩
  simp [completePromptVertex] at h

/-- Claim C7 (amended): when the backend call raises an `Error`,
`completePrompt` re-raises an error whose message is
`"Vertex completion error: "` followed by the original message text; a
thrown non-`Error` value, however, is re-raised unchanged. -/
theorem completePromptVertex_wrap (msg v : String) (t : Option String) :
    completePromptVertex (Except.error (JsThrown.errorObj msg)) =
      Except.error (JsThrown.errorObj ("Vertex completion error: " ++ msg)) ∧
    completePromptVertex (Except.error (JsThrown.rawValue v)) =
      Except.error (JsThrown.rawValue v) ∧
    completePromptVertex (Except.ok t) = Except.ok (t.getD "") :=
  ⟨rfl, rfl, rfl⟩

/-- The capabilities `BaseProvider.dispose` probes on the `client`
property: the presence of `close`, `destroy` and `dispose` methods. -/
structure Client where
  hasClose : Bool
  hasDestroy : Bool
  hasDisposeMethod : Bool
deriving DecidableEq

/-- A provider instance as seen by `dispose`: its optional `client`. -/
structure ProviderState where
  client : Option Client
deriving DecidableEq

/-- How many disposal methods `BaseProvider.dispose` invokes on a held
client: the `else if` chain calls exactly the first available of
`close`, `destroy`, `dispose`, and none when none exists. -/
def releaseCallCount (cl : Client) : ℕ :=
  if cl.hasClose then 1 else if cl.hasDestroy then 1 else if cl.hasDisposeMethod then 1 else 0

/-- Embedding of `BaseProvider.dispose`
(src/src/api/providers/base-provider.ts lines 42-57): when a client is
held, invoke at most one disposal method and clear the reference; when no
client is held, do nothing.  The second component counts disposal-method
invocations. -/
def dispose (s : ProviderState) : ProviderState × ℕ :=
  match s.client with
  | none => (s, 0)
  | some cl => (⟨none⟩, releaseCallCount cl)

/-- Claim C9: `dispose` is a no-op when no client was ever acquired;
releases a held client (one with at least one disposal method) with
exactly one method invocation and clears the reference; and a second
`dispose` after any `dispose` is a no-op with zero invocations, so
`dispose` composed with itself equals a single `dispose`. -/
theorem dispose_contract (s : ProviderState) :
    (s.client = none → dispose s = (s, 0)) ∧
    (∀ cl, s.client = some cl →
      (cl.hasClose = true ∨ cl.hasDestroy = true ∨ cl.hasDisposeMethod = true) →
      dispose s = (⟨none⟩, 1)) ∧
    dispose (dispose s).1 = ((dispose s).1, 0) := by
  obtain ⟨c⟩ := s
  refine ⟨?_, ?_, ?_⟩
  · intro h
    simp only at h
    rw [h]
    rfl
  · intro cl hcl hm
    simp only at hcl
    rw [hcl]
    obtain ⟨b1, b2, b3⟩ := cl
    simp only [dispose, releaseCallCount]
    cases b1 <;> cases b2 <;> cases b3 <;> simp_all
  · cases c <;> rfl

/-- Claim C9 witness: disposing a provider holding a closable client makes
one release call and clears it; disposing a provider with no client is a
no-op with zero release calls. -/
theorem dispose_contract_witness :
    dispose ⟨some ⟨true, false, false⟩⟩ = (⟨none⟩, 1) ∧
    dispose ⟨none⟩ = (⟨none⟩, 0) :=
  ⟨(dispose_contract ⟨some ⟨true, false, false⟩⟩).2.1 ⟨true, false, false⟩ rfl (Or.inl rfl),
   (dispose_contract ⟨none⟩).1 rfl⟩
